import Mathlib

/-!
# AudioIntel, `frontend/chat.js`

A shallow embedding of the three pieces of `chat.js` that carry logic:

* the response resolver `getResponse` over the tables `botResponses` and `productUrls`;
* the link renderer `makeProductLinks` / `linkifyUrls`;
* the embedded browser session (`openInBrowser`, `navigateBrowser`, `browserBack`,
  `browserForward`, `browserReload`) over `browserHistory` / `browserHistoryIndex`.

JavaScript strings are sequences of UTF-16 code units, and `length`, `slice`, `includes`
and regular expressions without the `u` flag all work on code units; the embedding
therefore represents a string as the list of its code units.
-/

namespace AudioIntel

set_option maxRecDepth 100000

/-! ## Strings -/

/-- A JavaScript string, as the list of its UTF-16 code units. -/
abbrev JSString := List Nat

/-- UTF-16 encoding of one Unicode scalar value. -/
def utf16 (c : Char) : List Nat :=
  if c.toNat < 65536 then [c.toNat]
  else [55296 + (c.toNat - 65536) / 1024, 56320 + (c.toNat - 65536) % 1024]

/-- The JavaScript string denoted by a source literal. -/
def js (s : String) : JSString := s.toList.flatMap utf16

/-- Whether `m` holds of some suffix of the string (the empty suffix included): a scan
over every start position, left to right. -/
def anySuffix (m : JSString → Bool) : JSString → Bool
  | [] => m []
  | c :: cs => m (c :: cs) || anySuffix m cs

/-- `s.includes(key)`: `key` occurs in `s` as a run of consecutive code units. -/
def includes (s key : JSString) : Bool := anySuffix (fun t => key.isPrefixOf t) s

/-- `s.startsWith(p)`. -/
def startsWith (s p : JSString) : Bool := p.isPrefixOf s

/-- `String.prototype.toLowerCase` on strings of ASCII code units: `A`-`Z` go to `a`-`z`
and every other code unit is kept. On such strings this is what every JavaScript engine
computes; the mapping of the remaining code units comes from the engine's Unicode
tables, which is why the resolver below takes the lower-casing function as an argument. -/
def asciiToLowerCase (s : JSString) : JSString :=
  s.map fun c => if 65 ≤ c ∧ c ≤ 90 then c + 32 else c

/-! ## Regular expressions of `getResponse`

All six patterns carry the `i` flag and none the `u` flag. A pattern character then
matches an input code unit when both have the same `Canonicalize` image. Every pattern
character here is an ASCII character, and `Canonicalize` never sends a code unit of 128
or more to one below 128, so comparing the ASCII upper-casings decides the match. -/

/-- The comparison key of a code unit against an ASCII pattern character under the `i`
flag: `a`-`z` are upper-cased, every other code unit is kept. -/
def canonicalize (c : Nat) : Nat := if 97 ≤ c ∧ c ≤ 122 then c - 32 else c

/-- The literal pattern `pat` matches at the start of the string, ignoring ASCII case. -/
def literalAt : JSString → JSString → Bool
  | [], _ => true
  | _ :: _, [] => false
  | p :: ps, c :: cs => canonicalize p == canonicalize c && literalAt ps cs

/-- Outcome of `/pat/i.test(s)` for a pattern that is a literal word. -/
def testLiteral (pat : String) (s : JSString) : Bool := anySuffix (literalAt (js pat)) s

/-- The class `\d`: the ten ASCII digits. -/
def isDigit (c : Nat) : Bool := 48 ≤ c && c ≤ 57

/-- The pattern `\$\d+` matches at the start of the string: a dollar sign and at least
one digit. -/
def dollarDigitsAt : JSString → Bool
  | d :: c :: _ => d == 36 && isDigit c
  | _ => false

/-- Outcome of `/\$\d+|under|budget|cheap|affordable/i.test(s)`. -/
def testBudget (s : JSString) : Bool :=
  anySuffix dollarDigitsAt s || testLiteral "under" s || testLiteral "budget" s
    || testLiteral "cheap" s || testLiteral "affordable" s

/-- Outcome of `/cancel|quiet|silent|anc/i.test(s)`. -/
def testNoise (s : JSString) : Bool :=
  testLiteral "cancel" s || testLiteral "quiet" s || testLiteral "silent" s
    || testLiteral "anc" s

/-- Outcome of `/run|gym|sport|exercise|sweat/i.test(s)`. -/
def testWorkout (s : JSString) : Bool :=
  testLiteral "run" s || testLiteral "gym" s || testLiteral "sport" s
    || testLiteral "exercise" s || testLiteral "sweat" s

/-- Outcome of `/plane|flight|commut/i.test(s)`. -/
def testTravel (s : JSString) : Bool :=
  testLiteral "plane" s || testLiteral "flight" s || testLiteral "commut" s

/-- Outcome of `/mix|master|monitor|record|produc/i.test(s)`. -/
def testStudio (s : JSString) : Bool :=
  testLiteral "mix" s || testLiteral "master" s || testLiteral "monitor" s
    || testLiteral "record" s || testLiteral "produc" s

/-- Outcome of `/game|fps|spatial/i.test(s)`. -/
def testGaming (s : JSString) : Bool :=
  testLiteral "game" s || testLiteral "fps" s || testLiteral "spatial" s

/-! ## Tables -/

/-- The object literal `productUrls` (chat.js lines 8-34): product name and URL,
in insertion order, which is the order `Object.keys` enumerates. -/
def productUrls : List (JSString × JSString) :=
  [ (js "Sony WH-1000XM5", js "https://www.amazon.com/s?k=Sony+WH-1000XM5"),
    (js "Bose QC Ultra", js "https://www.amazon.com/s?k=Bose+QuietComfort+Ultra"),
    (js "Sennheiser Momentum 4", js "https://www.amazon.com/s?k=Sennheiser+Momentum+4+Wireless"),
    (js "JBL Tune 770NC", js "https://www.amazon.com/s?k=JBL+Tune+770NC"),
    (js "Beyerdynamic DT 900 Pro X", js "https://www.amazon.com/s?k=Beyerdynamic+DT+900+Pro+X"),
    (js "Audio-Technica ATH-M50x", js "https://www.amazon.com/s?k=Audio-Technica+ATH-M50x"),
    (js "Sony MDR-7506", js "https://www.amazon.com/s?k=Sony+MDR-7506"),
    (js "HiFiMAN Sundara", js "https://www.amazon.com/s?k=HiFiMAN+Sundara"),
    (js "AirPods Pro 2", js "https://www.amazon.com/s?k=AirPods+Pro+2"),
    (js "Sony WF-1000XM5", js "https://www.amazon.com/s?k=Sony+WF-1000XM5"),
    (js "Samsung Galaxy Buds3 Pro", js "https://www.amazon.com/s?k=Samsung+Galaxy+Buds3+Pro"),
    (js "Nothing Ear 2", js "https://www.amazon.com/s?k=Nothing+Ear+2"),
    (js "Jabra Elite 85t", js "https://www.amazon.com/s?k=Jabra+Elite+85t"),
    (js "JBL Tour Pro 2", js "https://www.amazon.com/s?k=JBL+Tour+Pro+2"),
    (js "Google Pixel Buds Pro 2", js "https://www.amazon.com/s?k=Google+Pixel+Buds+Pro+2"),
    (js "Beats Fit Pro", js "https://www.amazon.com/s?k=Beats+Fit+Pro"),
    (js "Sony WI-1000XM2", js "https://www.amazon.com/s?k=Sony+WI-1000XM2"),
    (js "JBL Tune Beam", js "https://www.amazon.com/s?k=JBL+Tune+Beam"),
    (js "OnePlus Bullets Z2", js "https://www.amazon.com/s?k=OnePlus+Bullets+Z2"),
    (js "Moondrop Aria", js "https://www.amazon.com/s?k=Moondrop+Aria"),
    (js "Shure SE846", js "https://www.amazon.com/s?k=Shure+SE846"),
    (js "Truthear HEXA", js "https://www.amazon.com/s?k=Truthear+HEXA"),
    (js "KZ ZS10 Pro", js "https://www.amazon.com/s?k=KZ+ZS10+Pro"),
    (js "SteelSeries Arctis Nova Pro", js "https://www.amazon.com/s?k=SteelSeries+Arctis+Nova+Pro"),
    (js "HyperX Cloud III", js "https://www.amazon.com/s?k=HyperX+Cloud+III") ]

/-- The object literal `botResponses` (chat.js lines 192-206): topic key and canned
response, in insertion order, which is the order `Object.entries` enumerates. -/
def botResponses : List (JSString × JSString) :=
  [ (js "bass",
      js "For bass lovers, I'd recommend the **Sony WH-1000XM5** (over-ear, $298) or **JBL Tune 770NC** (budget $79). Both deliver deep, punchy bass. Click any product to browse it â†’"),
    (js "noise",
      js "Top ANC picks: **Bose QC Ultra** (best silence, $349), **Sony WH-1000XM5** (best all-rounder, $298), and **AirPods Pro 2** (compact ANC, $199). Click to view details â†’"),
    (js "gaming",
      js "For gaming: **SteelSeries Arctis Nova Pro** (best spatial audio, $349) or **HyperX Cloud III** (budget-friendly, $99). Both offer low latency and clear mics. Click to browse â†’"),
    (js "wireless",
      js "Best wireless: **Sony WH-1000XM5** ($298, 30h), **Sennheiser Momentum 4** ($279, 60h!), or **JBL Tune 770NC** ($79, 44h). Click a product to see it â†’"),
    (js "budget",
      js "Great budget picks: **JBL Tune 770NC** ($79 headphone), **Nothing Ear 2** ($99 TWS), **OnePlus Bullets Z2** ($29 neckband), or **Moondrop Aria** ($79 IEM). Click to browse â†’"),
    (js "workout",
      js "For workouts: **Beats Fit Pro** (secure wingtips, $159), **Samsung Galaxy Buds3 Pro** (IPX7, $179). Both are sweat and splash proof! Click to view â†’"),
    (js "studio",
      js "Studio picks: **Beyerdynamic DT 900 Pro X** (open-back mixing, $249), **Audio-Technica ATH-M50x** (closed monitoring, $149), **Sony MDR-7506** (studio legend, $89). Click any â†’"),
    (js "tws",
      js "Top TWS: **AirPods Pro 2** (best for iPhone, $199), **Sony WF-1000XM5** (best ANC, $228), **Samsung Galaxy Buds3 Pro** (Android, $179). Click to view â†’"),
    (js "neckband",
      js "Best neckbands: **Sony WI-1000XM2** ($248, ANC), **JBL Tune Beam** ($49, 32h battery), **OnePlus Bullets Z2** ($29, fast charge). Click to browse â†’"),
    (js "earphone",
      js "Wired IEM picks: **Moondrop Aria** ($79, Harman-tuned), **Truthear HEXA** ($79, hybrid), **Shure SE846** ($699, audiophile). Click a link to view â†’"),
    (js "headphone",
      js "Best headphones: **Sony WH-1000XM5** (overall, $298), **Bose QC Ultra** (ANC, $349), **Sennheiser Momentum 4** (60h, $279), **HiFiMAN Sundara** (planar, $299). Click to browse â†’"),
    (js "travel",
      js "For travel: **Bose QC Ultra** (best ANC, $349), **Sony WH-1000XM5** (30h + multipoint, $298), or **AirPods Pro 2** (compact, $199). Click any product â†’"),
    (js "default",
      js "I'd love to help! Ask about headphones, TWS, neckbands, or earphones. I'll recommend products with clickable links â€” click any to view in the browser panel on the right! What matters most â€” sound, comfort, ANC, or price?") ]

/-- Property read `o.k` on one of the two table objects, for a key the object owns. -/
def getProp (o : List (JSString × JSString)) (k : String) : JSString :=
  ((o.find? fun e => e.1 == js k).map fun e => e.2).getD (js "undefined")

/-! ## Response resolver -/

/-- The template literal of `getResponse` (chat.js line 222) for the product `name`. -/
def productSentence (name : JSString) : JSString :=
  js "Here's the **" ++ name
    ++ js "** â€” a great choice! Click the link to browse it in the panel. I can compare it with others if you'd like."

/-- The function `getResponse` (chat.js lines 208-226). The two `for` loops return at the
first entry that passes their test, which is `List.find?` over the enumeration order.
`toLowerCase` is the engine's `String.prototype.toLowerCase`. -/
def getResponse (toLowerCase : JSString → JSString) (msg : JSString) : JSString :=
  let lower := toLowerCase msg
  match botResponses.find? (fun e => e.1 != js "default" && includes lower e.1) with
  | some e => e.2
  | none =>
    if testBudget lower then getProp botResponses "budget"
    else if testNoise lower then getProp botResponses "noise"
    else if testWorkout lower then getProp botResponses "workout"
    else if testTravel lower then getProp botResponses "travel"
    else if testStudio lower then getProp botResponses "studio"
    else if testGaming lower then getProp botResponses "gaming"
    else
      match productUrls.find? (fun e => includes lower (toLowerCase e.1)) with
      | some e => productSentence e.1
      | none => getProp botResponses "default"

/-- Stage 2 of the resolver as the specification words it: some non-default topic key
is a substring of the lower-cased input. -/
def hasTopicKey (lower : JSString) : Bool :=
  botResponses.any fun e => e.1 != js "default" && includes lower e.1

/-- The category patterns in the order in which `getResponse` tests them, each with the
key of the response it selects. -/
def categoryPatterns : List ((JSString → Bool) × String) :=
  [(testBudget, "budget"), (testNoise, "noise"), (testWorkout, "workout"),
   (testTravel, "travel"), (testStudio, "studio"), (testGaming, "gaming")]

/-- Stage 3 of the resolver as the specification words it: the response key of the first
category pattern, in the fixed order, that matches the lower-cased input. -/
def firstCategory (lower : JSString) : Option String :=
  (categoryPatterns.find? fun c => c.1 lower).map fun c => c.2

/-! ## Link renderer -/

/-- The class `\s` of a regular expression: the white space and line terminator code
units of ECMAScript. -/
def isWhiteSpace (c : Nat) : Bool :=
  (9 ≤ c && c ≤ 13) || c == 32 || c == 160 || c == 5760 || (8192 ≤ c && c ≤ 8202)
    || c == 8232 || c == 8233 || c == 8239 || c == 8287 || c == 12288 || c == 65279

/-- The class `[^\s<>"']` of `urlRegex`. No code unit has the `Canonicalize` image of a
white space character, an angle bracket or a quote except these characters themselves,
so the `i` flag does not change the class. -/
def urlChar (c : Nat) : Bool :=
  !(isWhiteSpace c || c == 60 || c == 62 || c == 34 || c == 39)

/-- Matches the literal `pat` at the start of the string, ignoring ASCII case, and
returns what follows it. -/
def dropLiteral : JSString → JSString → Option JSString
  | [], s => some s
  | _ :: _, [] => none
  | p :: ps, c :: cs => if canonicalize p == canonicalize c then dropLiteral ps cs else none

/-- The tail `:\/\/[^\s<>"']+` of `urlRegex` at the start of the string: the number of
code units matched. The class is repeated greedily and nothing follows it, so the
longest run is taken. -/
def urlTailLen (r : JSString) : Option Nat :=
  match dropLiteral (js "://") r with
  | none => none
  | some t =>
    let run := t.takeWhile urlChar
    if run.isEmpty then none else some (3 + run.length)

/-- The pattern `urlRegex = /(https?:\/\/[^\s<>"']+)/gi` (chat.js line 168) at the start
of the string: the number of code units of the match, if there is one. The optional `s`
is tried first and given up when the rest of the pattern fails after it. -/
def urlMatchLen (s : JSString) : Option Nat :=
  match dropLiteral (js "http") s with
  | none => none
  | some r =>
    match (dropLiteral (js "s") r).bind urlTailLen with
    | some n => some (5 + n)
    | none => (urlTailLen r).map fun n => 4 + n

/-- The visible label that the callback of `linkifyUrls` computes (chat.js line 172):
`url.length > 50 ? url.slice(0, 47) + '...' : url`. -/
def shortLabel (url : JSString) : JSString :=
  if url.length > 50 then url.take 47 ++ js "..." else url

/-- The callback of `linkifyUrls` (chat.js lines 171-174): the markup that replaces a
matched URL. -/
def urlControl (url : JSString) : JSString :=
  js "<a class=\"product-link\" onclick=\"event.preventDefault();openInBrowser('" ++ url
    ++ js "')\" href=\"#\" title=\"Open in browser\">" ++ shortLabel url ++ js "</a>"

/-- The call `text.replace(urlRegex, callback)` as a left-to-right scan. The first
argument counts the code units of the current match that are still to be passed over;
at 0 the pattern is tried at the current position, and where it fails the code unit is
copied. -/
def linkifyFrom : Nat → JSString → JSString
  | _, [] => []
  | n + 1, _ :: cs => linkifyFrom n cs
  | 0, c :: cs =>
    match urlMatchLen (c :: cs) with
    | some n => urlControl ((c :: cs).take n) ++ linkifyFrom (n - 1) cs
    | none => c :: linkifyFrom 0 cs

/-- The function `linkifyUrls` (chat.js lines 170-175). -/
def linkifyUrls (text : JSString) : JSString := linkifyFrom 0 text

/-- Line terminators, which `.` does not match. -/
def isLineTerminator (c : Nat) : Bool := c == 10 || c == 13 || c == 8232 || c == 8233

/-- The part `(.*?)\*\*` of the emphasis pattern at the start of the string: the number
of code units captured by the group. The group is lazy, so the first closing `**` that
is reached without crossing a line terminator ends it. -/
def lazyNameLen : JSString → Option Nat
  | [] => none
  | c :: cs =>
    if startsWith (c :: cs) (js "**") then some 0
    else if isLineTerminator c then none
    else (lazyNameLen cs).map fun n => n + 1

/-- The pattern `/\*\*(.*?)\*\*/g` (chat.js line 180) at the start of the string: the
captured name, if the pattern matches. The whole match is the name between two `**`. -/
def emphasisMatch (s : JSString) : Option JSString :=
  if startsWith s (js "**") then
    (lazyNameLen (s.drop 2)).map fun n => (s.drop 2).take n
  else none

/-- The read `productUrls[name]` (chat.js line 181), when it gives a truthy value: the
value as the template literal prints it. An own property of `productUrls` is its URL;
for any other name `inherited` gives the printed form of the property that the object
inherits from the engine's `Object.prototype` under that name, if there is one. -/
def productUrlOf (inherited : JSString → Option JSString) (name : JSString) :
    Option JSString :=
  match productUrls.find? fun e => e.1 == name with
  | some e => if e.2.isEmpty then none else some e.2
  | none => inherited name

/-- The markup of an activation control for a catalog product (chat.js line 183). -/
def productControl (url name : JSString) : JSString :=
  js "<a class=\"product-link\" onclick=\"event.preventDefault();openInBrowser('" ++ url
    ++ js "')\" href=\"#\" title=\"View " ++ name ++ js " in browser\">" ++ name ++ js "</a>"

/-- The callback of the emphasis substitution (chat.js lines 180-186). -/
def emphasisControl (inherited : JSString → Option JSString) (name : JSString) : JSString :=
  match productUrlOf inherited name with
  | some url => productControl url name
  | none => js "<strong>" ++ name ++ js "</strong>"

/-- The call `text.replace(/\*\*(.*?)\*\*/g, callback)` of `makeProductLinks` as a
left-to-right scan, with the same counter as `linkifyFrom`. -/
def replaceEmphasisFrom (inherited : JSString → Option JSString) :
    Nat → JSString → JSString
  | _, [] => []
  | n + 1, _ :: cs => replaceEmphasisFrom inherited n cs
  | 0, c :: cs =>
    match emphasisMatch (c :: cs) with
    | some name =>
      emphasisControl inherited name ++ replaceEmphasisFrom inherited (name.length + 3) cs
    | none => c :: replaceEmphasisFrom inherited 0 cs

/-- The first statement of `makeProductLinks` (chat.js lines 180-186). -/
def replaceEmphasis (inherited : JSString → Option JSString) (text : JSString) : JSString :=
  replaceEmphasisFrom inherited 0 text

/-- The function `makeProductLinks` (chat.js lines 178-190): the emphasis substitution,
then `linkifyUrls` on its result. -/
def makeProductLinks (inherited : JSString → Option JSString) (text : JSString) : JSString :=
  linkifyUrls (replaceEmphasis inherited text)

/-! ## Embedded browser session -/

/-- The state that the browser functions read and write: the two module variables
`browserHistory` and `browserHistoryIndex` (chat.js lines 37-38), the string last
assigned to `frame.src` (empty while nothing was assigned) and the value of the URL
bar. The loading overlay and the welcome panel are display only and are left out. -/
structure Browser where
  browserHistory : List JSString
  browserHistoryIndex : Int
  frameSrc : JSString
  urlBar : JSString
  deriving DecidableEq

/-- The state when the script is loaded; the URL bar holds what the page gives it. -/
def initialBrowser (bar : JSString) : Browser :=
  { browserHistory := [], browserHistoryIndex := -1, frameSrc := [], urlBar := bar }

/-- `xs.slice(0, e)` of an array: a negative `e` counts from the end, and the result
is clamped to the array. -/
def slice0 {α : Type} (xs : List α) (e : Int) : List α :=
  if e < 0 then xs.take ((xs.length : Int) + e).toNat else xs.take e.toNat

/-- The read `xs[i]` of an array of strings, as a string: `undefined` prints as
"undefined" when it is assigned to `frame.src` or to the URL bar. -/
def elementAt (xs : List JSString) (i : Int) : JSString :=
  if 0 ≤ i then (xs.get? i.toNat).getD (js "undefined") else js "undefined"

/-- The function `openInBrowser` (chat.js lines 40-74). -/
def openInBrowser (url : JSString) (s : Browser) : Browser :=
  let history := slice0 s.browserHistory (s.browserHistoryIndex + 1) ++ [url]
  { browserHistory := history
    browserHistoryIndex := (history.length : Int) - 1
    frameSrc := url
    urlBar := url }

/-- The function `navigateBrowser` (chat.js lines 76-80); the empty string is the one
falsy string. -/
def navigateBrowser (url : JSString) (s : Browser) : Browser :=
  if url.isEmpty then s
  else openInBrowser (if startsWith url (js "http") then url else js "https://" ++ url) s

/-- The function `browserBack` (chat.js lines 82-89). -/
def browserBack (s : Browser) : Browser :=
  if s.browserHistoryIndex > 0 then
    let index := s.browserHistoryIndex - 1
    let url := elementAt s.browserHistory index
    { s with browserHistoryIndex := index, frameSrc := url, urlBar := url }
  else s

/-- The function `browserForward` (chat.js lines 91-98). -/
def browserForward (s : Browser) : Browser :=
  if s.browserHistoryIndex < (s.browserHistory.length : Int) - 1 then
    let index := s.browserHistoryIndex + 1
    let url := elementAt s.browserHistory index
    { s with browserHistoryIndex := index, frameSrc := url, urlBar := url }
  else s

/-- The function `browserReload` (chat.js lines 100-103): assigns `frame.src` to
itself when it is not empty. -/
def browserReload (s : Browser) : Browser :=
  if s.frameSrc.isEmpty then s else { s with frameSrc := s.frameSrc }

/-- One call of a browser function. -/
inductive Op where
  | openInBrowser (url : JSString)
  | navigateBrowser (url : JSString)
  | browserBack
  | browserForward
  | browserReload
  deriving DecidableEq

/-- The state after one call. -/
def step (s : Browser) : Op → Browser
  | .openInBrowser url => openInBrowser url s
  | .navigateBrowser url => navigateBrowser url s
  | .browserBack => browserBack s
  | .browserForward => browserForward s
  | .browserReload => browserReload s

/-- The state after a sequence of calls, first call first. -/
def run (ops : List Op) (s : Browser) : Browser := ops.foldl step s

/-- The session invariant of the specification: the history is empty and the index is
-1, or the index is a position of the history. -/
def SessionInvariant (s : Browser) : Prop :=
  (s.browserHistory = [] ∧ s.browserHistoryIndex = -1)
    ∨ (0 ≤ s.browserHistoryIndex ∧ s.browserHistoryIndex < (s.browserHistory.length : Int))

instance (s : Browser) : Decidable (SessionInvariant s) := by
  unfold SessionInvariant
  infer_instance

/-- The normalized form of a URL as the specification words it: the URL itself when it
starts with "http", otherwise "https://" followed by the URL. -/
def normalizeUrl (url : JSString) : JSString :=
  if startsWith url (js "http") then url else js "https://" ++ url

/-! ## Facts about the string primitives -/

theorem anySuffix_iff (m : JSString → Bool) (s : JSString) :
    anySuffix m s = true ↔ ∃ t, t <:+ s ∧ m t = true := by
  induction s with
  | nil =>
    simp [anySuffix]
  | cons c cs ih =>
    simp only [anySuffix, Bool.or_eq_true, ih, List.suffix_cons_iff]
    constructor
    · rintro (h | ⟨t, ht, hm⟩)
      · exact ⟨c :: cs, Or.inl rfl, h⟩
      · exact ⟨t, Or.inr ht, hm⟩
    · rintro ⟨t, rfl | ht, hm⟩
      · exact Or.inl hm
      · exact Or.inr ⟨t, ht, hm⟩

/-- The scan `includes` decides the contiguous-substring relation. -/
theorem includes_iff (s key : JSString) : includes s key = true ↔ key <:+: s := by
  unfold includes
  rw [anySuffix_iff, List.infix_iff_prefix_suffix]
  constructor
  · rintro ⟨t, ht, hp⟩
    exact ⟨t, List.isPrefixOf_iff_prefix.mp hp, ht⟩
  · rintro ⟨t, hp, ht⟩
    exact ⟨t, ht, List.isPrefixOf_iff_prefix.mpr hp⟩

theorem includes_middle (a n b : JSString) : includes (a ++ n ++ b) n = true :=
  (includes_iff _ _).mpr ⟨a, b, rfl⟩

theorem find_first {α : Type} (p : α → Bool) (pre post : List α) (x : α)
    (hpre : ∀ e ∈ pre, p e = false) (hx : p x = true) :
    (pre ++ x :: post).find? p = some x := by
  induction pre with
  | nil => simp [hx]
  | cons a as ih =>
    have ha : p a = false := hpre a (List.mem_cons_self _ _)
    have has : ∀ e ∈ as, p e = false := fun e he => hpre e (List.mem_cons_of_mem _ he)
    simp [List.find?, ha, ih has]

theorem find_none_of_any_false {α : Type} (p : α → Bool) (l : List α)
    (h : l.any p = false) : l.find? p = none := by
  rw [List.find?_eq_none]
  intro x hx hp
  have : l.any p = true := List.any_eq_true.mpr ⟨x, hx, hp⟩
  rw [h] at this
  exact Bool.noConfusion this

/-- Without a topic key in the input, `getResponse` is its chain of category tests
followed by the catalog scan. -/
theorem getResponse_of_no_topic_key (toLowerCase : JSString → JSString) (msg : JSString)
    (h : hasTopicKey (toLowerCase msg) = false) :
    getResponse toLowerCase msg =
      if testBudget (toLowerCase msg) then getProp botResponses "budget"
      else if testNoise (toLowerCase msg) then getProp botResponses "noise"
      else if testWorkout (toLowerCase msg) then getProp botResponses "workout"
      else if testTravel (toLowerCase msg) then getProp botResponses "travel"
      else if testStudio (toLowerCase msg) then getProp botResponses "studio"
      else if testGaming (toLowerCase msg) then getProp botResponses "gaming"
      else
        match productUrls.find? (fun e => includes (toLowerCase msg) (toLowerCase e.1)) with
        | some e => productSentence e.1
        | none => getProp botResponses "default" := by
  unfold getResponse
  simp only []
  rw [find_none_of_any_false _ _ h]

/-! ## Claims about the response resolver -/

/-- C1 (as stated, refuted): the lower-cased input "wireless headphones" contains the
non-default topic key "headphone", yet `getResponse` does not return the response of
that key. -/
theorem getResponse_topic_key_not_exact :
    (js "headphone", getProp botResponses "headphone") ∈ botResponses
      ∧ js "headphone" ≠ js "default"
      ∧ includes (asciiToLowerCase (js "wireless headphones")) (js "headphone") = true
      ∧ getResponse asciiToLowerCase (js "wireless headphones")
          ≠ getProp botResponses "headphone" := by
  decide

/-- C1 (amended): when a non-default topic key `k` is a substring of the lower-cased
input and no non-default key before `k` in the table order is, `getResponse` returns
exactly the response stored under `k`, whatever the case of the input's letters. -/
theorem getResponse_first_topic_key (toLowerCase : JSString → JSString) (msg : JSString)
    (pre post : List (JSString × JSString)) (k v : JSString)
    (htable : botResponses = pre ++ (k, v) :: post)
    (hk : k ≠ js "default")
    (hin : includes (toLowerCase msg) k = true)
    (hfirst : ∀ e ∈ pre, e.1 ≠ js "default" → includes (toLowerCase msg) e.1 = false) :
    getResponse toLowerCase msg = v := by
  unfold getResponse
  simp only []
  rw [htable, find_first _ pre post (k, v)]
  · intro e he
    by_cases hd : e.1 = js "default"
    · simp [hd]
    · simp [hfirst e he hd]
  · simp [hk, hin]

theorem getResponse_first_topic_key_witness :
    getResponse asciiToLowerCase (js "Wireless HEADPHONES") = getProp botResponses "wireless" :=
  getResponse_first_topic_key asciiToLowerCase (js "Wireless HEADPHONES")
    (botResponses.take 3) (botResponses.drop 4) (js "wireless")
    (getProp botResponses "wireless") (by decide) (by decide) (by decide) (by decide)

/-- C2 (as stated, refuted): for "I need something quiet for the gym" the response of
`getResponse` is not the workout response. -/
theorem getResponse_quiet_gym_not_workout :
    getResponse asciiToLowerCase (js "I need something quiet for the gym")
      ≠ getProp botResponses "workout" := by
  decide

/-- C2 (amended): whenever lower-casing "I need something quiet for the gym" gives
"i need something quiet for the gym", `getResponse` returns the noise response: no topic
key occurs in the input, the budget pattern fails, and the noise pattern (`quiet`) is
tested before the workout pattern (`gym`). -/
theorem getResponse_quiet_gym_noise (toLowerCase : JSString → JSString)
    (hlower : toLowerCase (js "I need something quiet for the gym")
      = js "i need something quiet for the gym") :
    hasTopicKey (toLowerCase (js "I need something quiet for the gym")) = false
      ∧ testBudget (toLowerCase (js "I need something quiet for the gym")) = false
      ∧ testNoise (toLowerCase (js "I need something quiet for the gym")) = true
      ∧ testWorkout (toLowerCase (js "I need something quiet for the gym")) = true
      ∧ getResponse toLowerCase (js "I need something quiet for the gym")
          = getProp botResponses "noise" := by
  have h1 : hasTopicKey (js "i need something quiet for the gym") = false := by decide
  have h2 : testBudget (js "i need something quiet for the gym") = false := by decide
  have h3 : testNoise (js "i need something quiet for the gym") = true := by decide
  have h4 : testWorkout (js "i need something quiet for the gym") = true := by decide
  refine ⟨by rw [hlower]; exact h1, by rw [hlower]; exact h2, by rw [hlower]; exact h3,
    by rw [hlower]; exact h4, ?_⟩
  rw [getResponse_of_no_topic_key _ _ (by rw [hlower]; exact h1), hlower]
  simp [h2, h3]

theorem getResponse_quiet_gym_noise_witness :
    getResponse asciiToLowerCase (js "I need something quiet for the gym")
      = getProp botResponses "noise" :=
  (getResponse_quiet_gym_noise asciiToLowerCase (by decide)).2.2.2.2

/-- C3: when the lower-cased input contains no non-default topic key and some category
pattern matches it, `getResponse` returns the canned response of the first matching
category in the fixed order budget, noise, workout, travel, studio, gaming; in
particular an input matching exactly one category gets that category's response.
Nothing is assumed about catalog product names in the input, so their presence does
not change the result. -/
theorem getResponse_first_category (toLowerCase : JSString → JSString) (msg : JSString)
    (hno : hasTopicKey (toLowerCase msg) = false) :
    (∀ k, firstCategory (toLowerCase msg) = some k →
        getResponse toLowerCase msg = getProp botResponses k)
      ∧ (∀ c ∈ categoryPatterns, c.1 (toLowerCase msg) = true →
          (∀ d ∈ categoryPatterns, d.1 (toLowerCase msg) = true → d.2 = c.2) →
          getResponse toLowerCase msg = getProp botResponses c.2) := by
  have main : ∀ k, firstCategory (toLowerCase msg) = some k →
      getResponse toLowerCase msg = getProp botResponses k := by
    intro k hk
    rw [getResponse_of_no_topic_key _ _ hno]
    simp only [firstCategory, categoryPatterns, List.find?] at hk
    cases h1 : testBudget (toLowerCase msg) <;> simp only [h1] at hk
    · cases h2 : testNoise (toLowerCase msg) <;> simp only [h2] at hk
      · cases h3 : testWorkout (toLowerCase msg) <;> simp only [h3] at hk
        · cases h4 : testTravel (toLowerCase msg) <;> simp only [h4] at hk
          · cases h5 : testStudio (toLowerCase msg) <;> simp only [h5] at hk
            · cases h6 : testGaming (toLowerCase msg) <;> simp only [h6] at hk
              · simp at hk
              · simp at hk; subst hk; simp
            · simp at hk; subst hk; simp
          · simp at hk; subst hk; simp
        · simp at hk; subst hk; simp
      · simp at hk; subst hk; simp
    · simp at hk; subst hk; simp
  refine ⟨main, ?_⟩
  intro c hc hmatch honly
  cases hf : categoryPatterns.find? (fun d => d.1 (toLowerCase msg)) with
  | none =>
    rw [List.find?_eq_none] at hf
    exact absurd hmatch (hf c hc)
  | some d =>
    have hd : d.1 (toLowerCase msg) = true := by simpa using List.find?_some hf
    have hmem : d ∈ categoryPatterns := List.mem_of_find?_eq_some hf
    rw [← honly d hmem hd]
    exact main d.2 (by simp [firstCategory, hf])

theorem getResponse_first_category_witness :
    getResponse asciiToLowerCase (js "Something for the GYM, maybe a Beats Fit Pro")
      = getProp botResponses "workout" :=
  (getResponse_first_category asciiToLowerCase
    (js "Something for the GYM, maybe a Beats Fit Pro") (by decide)).1 "workout" (by decide)

/-- C4 (as stated, refuted): the lower-cased input "sony wh-1000xm5 or bose qc ultra"
contains the lower-cased catalog name "Bose QC Ultra", no topic key and no category
pattern, yet the response of `getResponse` does not contain "Bose QC Ultra". -/
theorem getResponse_product_name_not_contained :
    (js "Bose QC Ultra", getProp productUrls "Bose QC Ultra") ∈ productUrls
      ∧ includes (asciiToLowerCase (js "Sony WH-1000XM5 or Bose QC Ultra"))
          (asciiToLowerCase (js "Bose QC Ultra")) = true
      ∧ hasTopicKey (asciiToLowerCase (js "Sony WH-1000XM5 or Bose QC Ultra")) = false
      ∧ firstCategory (asciiToLowerCase (js "Sony WH-1000XM5 or Bose QC Ultra")) = none
      ∧ includes (getResponse asciiToLowerCase (js "Sony WH-1000XM5 or Bose QC Ultra"))
          (js "Bose QC Ultra") = false := by
  decide

/-- C4 (amended): when the lower-cased input contains the lower-cased catalog name `n`,
contains no non-default topic key, matches no category pattern, and contains the
lower-cased form of no catalog name listed before `n`, `getResponse` returns the
synthesized sentence for `n`, and that sentence contains `n`. -/
theorem getResponse_first_product (toLowerCase : JSString → JSString) (msg : JSString)
    (pre post : List (JSString × JSString)) (n u : JSString)
    (hcatalog : productUrls = pre ++ (n, u) :: post)
    (hin : includes (toLowerCase msg) (toLowerCase n) = true)
    (hno : hasTopicKey (toLowerCase msg) = false)
    (hcat : firstCategory (toLowerCase msg) = none)
    (hfirst : ∀ e ∈ pre, includes (toLowerCase msg) (toLowerCase e.1) = false) :
    getResponse toLowerCase msg = productSentence n
      ∧ includes (getResponse toLowerCase msg) n = true := by
  have hres : getResponse toLowerCase msg = productSentence n := by
    rw [getResponse_of_no_topic_key _ _ hno]
    simp only [firstCategory, categoryPatterns, List.find?] at hcat
    cases h1 : testBudget (toLowerCase msg) <;> simp only [h1] at hcat <;> try simp at hcat
    cases h2 : testNoise (toLowerCase msg) <;> simp only [h2] at hcat <;> try simp at hcat
    cases h3 : testWorkout (toLowerCase msg) <;> simp only [h3] at hcat <;> try simp at hcat
    cases h4 : testTravel (toLowerCase msg) <;> simp only [h4] at hcat <;> try simp at hcat
    cases h5 : testStudio (toLowerCase msg) <;> simp only [h5] at hcat <;> try simp at hcat
    cases h6 : testGaming (toLowerCase msg) <;> simp only [h6] at hcat <;> try simp at hcat
    rw [hcatalog, find_first _ pre post (n, u) hfirst hin]
    simp
  refine ⟨hres, ?_⟩
  rw [hres]
  exact includes_middle _ _ _

theorem getResponse_first_product_witness :
    getResponse asciiToLowerCase (js "Do you have the bose qc ultra?")
        = productSentence (js "Bose QC Ultra")
      ∧ includes (getResponse asciiToLowerCase (js "Do you have the bose qc ultra?"))
          (js "Bose QC Ultra") = true :=
  getResponse_first_product asciiToLowerCase (js "Do you have the bose qc ultra?")
    (productUrls.take 1) (productUrls.drop 2) (js "Bose QC Ultra")
    (getProp productUrls "Bose QC Ultra") (by decide) (by decide) (by decide) (by decide)
    (by decide)

/-! ## Facts about the link renderer -/

theorem linkifyFrom_skip (xs ys : JSString) :
    linkifyFrom xs.length (xs ++ ys) = linkifyFrom 0 ys := by
  induction xs with
  | nil => rfl
  | cons x xs ih => simpa [linkifyFrom] using ih

theorem linkifyFrom_copy (pre s : JSString)
    (hpre : ∀ i, i < pre.length → urlMatchLen ((pre ++ s).drop i) = none) :
    linkifyFrom 0 (pre ++ s) = pre ++ linkifyFrom 0 s := by
  induction pre with
  | nil => rfl
  | cons p ps ih =>
    have h0 : urlMatchLen (p :: (ps ++ s)) = none := hpre 0 (by simp)
    have hs : ∀ i, i < ps.length → urlMatchLen ((ps ++ s).drop i) = none := by
      intro i hi
      have := hpre (i + 1) (by simpa using hi)
      simpa using this
    simp [linkifyFrom, h0, ih hs]

theorem linkifyFrom_match (u rest : JSString) (hu : u ≠ [])
    (hmatch : urlMatchLen (u ++ rest) = some u.length) :
    linkifyFrom 0 (u ++ rest) = urlControl u ++ linkifyFrom 0 rest := by
  cases u with
  | nil => exact absurd rfl hu
  | cons c cs =>
    have h : urlMatchLen (c :: (cs ++ rest)) = some (cs.length + 1) := by simpa using hmatch
    have hstep : linkifyFrom 0 (c :: (cs ++ rest))
        = urlControl ((c :: (cs ++ rest)).take (cs.length + 1))
            ++ linkifyFrom (cs.length + 1 - 1) (cs ++ rest) := by
      rw [linkifyFrom, h]
    rw [List.cons_append, hstep, Nat.add_sub_cancel, linkifyFrom_skip]
    simp

theorem takeWhile_urlChar_run (run rest : JSString)
    (hrun : ∀ c ∈ run, urlChar c = true)
    (hrest : ∀ c, rest.head? = some c → urlChar c = false) :
    (run ++ rest).takeWhile urlChar = run := by
  induction run with
  | nil =>
    cases rest with
    | nil => rfl
    | cons r rs => simp [List.takeWhile, hrest r rfl]
  | cons x xs ih =>
    have hx : urlChar x = true := hrun x (List.mem_cons_self _ _)
    have hxs : ∀ c ∈ xs, urlChar c = true := fun c hc => hrun c (List.mem_cons_of_mem _ hc)
    simp [List.takeWhile, hx, ih hxs]

theorem urlTailLen_of_run (a b c : Nat) (run rest : JSString)
    (ha : canonicalize a = canonicalize 58) (hb : canonicalize b = canonicalize 47)
    (hc : canonicalize c = canonicalize 47) (hne : run ≠ [])
    (hrun : ∀ c ∈ run, urlChar c = true)
    (hrest : ∀ c, rest.head? = some c → urlChar c = false) :
    urlTailLen (a :: b :: c :: (run ++ rest)) = some (3 + run.length) := by
  have hj : js "://" = [58, 47, 47] := by decide
  have hempty : run.isEmpty = false := by
    cases run with
    | nil => exact absurd rfl hne
    | cons x xs => rfl
  simp [urlTailLen, hj, dropLiteral, ha, hb, hc, takeWhile_urlChar_run run rest hrun hrest,
    hempty]

/-- Every run that has the shape of a URL is matched whole by `urlRegex` at its first
code unit: a scheme that is `http://` or `https://` in any letter case, then at least
one code unit, none of them white space, an angle bracket or a quote, up to the end of
the text or to the first such code unit. -/
theorem urlMatchLen_of_url (scheme run rest : JSString)
    (hscheme : scheme.map canonicalize = (js "http://").map canonicalize
      ∨ scheme.map canonicalize = (js "https://").map canonicalize)
    (hne : run ≠ [])
    (hrun : ∀ c ∈ run, urlChar c = true)
    (hrest : ∀ c, rest.head? = some c → urlChar c = false) :
    urlMatchLen (scheme ++ run ++ rest) = some (scheme ++ run).length := by
  have hj1 : js "http://" = [104, 116, 116, 112, 58, 47, 47] := by decide
  have hj2 : js "https://" = [104, 116, 116, 112, 115, 58, 47, 47] := by decide
  have hj3 : js "http" = [104, 116, 116, 112] := by decide
  have hj4 : js "s" = [115] := by decide
  have hs58 : (canonicalize 115 == canonicalize 58) = false := by decide
  rcases hscheme with h | h
  · rw [hj1] at h
    simp only [List.map_cons, List.map_nil, List.map_eq_cons_iff, List.map_eq_nil_iff] at h
    obtain ⟨a1, _, rfl, h1, a2, _, rfl, h2, a3, _, rfl, h3, a4, _, rfl, h4, a5, _, rfl, h5,
      a6, _, rfl, h6, a7, _, rfl, h7, rfl⟩ := h
    have ht := urlTailLen_of_run a5 a6 a7 run rest h5 h6 h7 hne hrun hrest
    simp only [List.cons_append, List.nil_append, List.append_assoc] at ht ⊢
    simp [urlMatchLen, hj3, hj4, dropLiteral, h1, h2, h3, h4, h5, hs58, ht]
    omega
  · rw [hj2] at h
    simp only [List.map_cons, List.map_nil, List.map_eq_cons_iff, List.map_eq_nil_iff] at h
    obtain ⟨a1, _, rfl, h1, a2, _, rfl, h2, a3, _, rfl, h3, a4, _, rfl, h4, a0, _, rfl, h0,
      a5, _, rfl, h5, a6, _, rfl, h6, a7, _, rfl, h7, rfl⟩ := h
    have ht := urlTailLen_of_run a5 a6 a7 run rest h5 h6 h7 hne hrun hrest
    simp only [List.cons_append, List.nil_append, List.append_assoc] at ht ⊢
    simp [urlMatchLen, hj3, hj4, dropLiteral, h1, h2, h3, h4, h0, ht]
    omega

theorem dropLiteral_some (pat s r : JSString) (h : dropLiteral pat s = some r) :
    ∃ m, s = m ++ r ∧ m.map canonicalize = pat.map canonicalize := by
  induction pat generalizing s with
  | nil =>
    simp only [dropLiteral, Option.some.injEq] at h
    exact ⟨[], by simp [h], rfl⟩
  | cons p ps ih =>
    cases s with
    | nil => simp [dropLiteral] at h
    | cons c cs =>
      simp only [dropLiteral] at h
      split at h
      · rename_i hpc
        obtain ⟨m, hm, hmap⟩ := ih cs h
        refine ⟨c :: m, by simp [hm], ?_⟩
        simp only [List.map_cons, hmap]
        rw [eq_of_beq hpc]
      · exact Option.noConfusion h

theorem urlTailLen_some (r : JSString) (k : Nat) (h : urlTailLen r = some k) :
    ∃ m run rest, r = m ++ run ++ rest
      ∧ m.map canonicalize = (js "://").map canonicalize
      ∧ run ≠ [] ∧ (∀ c ∈ run, urlChar c = true)
      ∧ (∀ c ∈ rest.head?, urlChar c = false) ∧ k = 3 + run.length := by
  unfold urlTailLen at h
  split at h
  · exact Option.noConfusion h
  · rename_i t ht
    obtain ⟨m, hm, hmap⟩ := dropLiteral_some _ _ _ ht
    simp only at h
    split at h
    · exact Option.noConfusion h
    · rename_i hrun
      refine ⟨m, t.takeWhile urlChar, t.dropWhile urlChar, ?_, hmap, ?_, ?_, ?_, ?_⟩
      · rw [List.append_assoc, List.takeWhile_append_dropWhile, hm]
      · intro hnil
        exact hrun (by simp [hnil])
      · intro c hc
        exact List.mem_takeWhile_imp hc
      · intro c hc
        have hd := List.head?_dropWhile_not urlChar t
        rw [Option.mem_def] at hc
        rw [hc] at hd
        exact hd
      · exact (Option.some.inj h).symm

/-- Every match of `urlRegex` has the shape of a URL: a scheme that is `http://` or
`https://` in any letter case, then a non-empty run free of white space, angle brackets
and quotes that extends to the end of the text or to the first such code unit. -/
theorem urlMatchLen_some (s : JSString) (n : Nat) (h : urlMatchLen s = some n) :
    ∃ scheme run rest, s = scheme ++ run ++ rest ∧ n = (scheme ++ run).length
      ∧ (scheme.map canonicalize = (js "http://").map canonicalize
          ∨ scheme.map canonicalize = (js "https://").map canonicalize)
      ∧ run ≠ [] ∧ (∀ c ∈ run, urlChar c = true)
      ∧ (∀ c ∈ rest.head?, urlChar c = false) := by
  have hj1 : js "http://" = js "http" ++ js "://" := by decide
  have hj2 : js "https://" = js "http" ++ js "s" ++ js "://" := by decide
  have hl4 : ∀ m : JSString, m.map canonicalize = (js "http").map canonicalize →
      m.length = 4 := fun m hm => by simpa using congrArg List.length hm
  have hl1 : ∀ m : JSString, m.map canonicalize = (js "s").map canonicalize →
      m.length = 1 := fun m hm => by simpa using congrArg List.length hm
  have hl3 : ∀ m : JSString, m.map canonicalize = (js "://").map canonicalize →
      m.length = 3 := fun m hm => by simpa using congrArg List.length hm
  unfold urlMatchLen at h
  split at h
  · exact Option.noConfusion h
  · rename_i r hr
    obtain ⟨m1, hm1, hmap1⟩ := dropLiteral_some _ _ _ hr
    split at h
    · rename_i k hk
      rw [Option.bind_eq_some] at hk
      obtain ⟨r2, hr2, hk2⟩ := hk
      obtain ⟨m2, hm2, hmap2⟩ := dropLiteral_some _ _ _ hr2
      obtain ⟨m3, run, rest, hm3, hmap3, hne, hrun, hrest, hk3⟩ := urlTailLen_some _ _ hk2
      refine ⟨m1 ++ m2 ++ m3, run, rest, ?_, ?_, Or.inr ?_, hne, hrun, hrest⟩
      · rw [hm1, hm2, hm3]
        simp only [List.append_assoc]
      · have := Option.some.inj h
        simp only [List.length_append, hl4 m1 hmap1, hl1 m2 hmap2, hl3 m3 hmap3]
        omega
      · rw [hj2, List.map_append, List.map_append, List.map_append, List.map_append, hmap1,
          hmap2, hmap3]
    · rw [Option.map_eq_some'] at h
      obtain ⟨k, hk2, hk⟩ := h
      obtain ⟨m3, run, rest, hm3, hmap3, hne, hrun, hrest, hk3⟩ := urlTailLen_some _ _ hk2
      refine ⟨m1 ++ m3, run, rest, ?_, ?_, Or.inl ?_, hne, hrun, hrest⟩
      · rw [hm1, hm3]
        simp only [List.append_assoc]
      · simp only [List.length_append, hl4 m1 hmap1, hl3 m3 hmap3]
        omega
      · rw [hj1, List.map_append, List.map_append, hmap1, hmap3]

theorem shortLabel_length (url : JSString) : (shortLabel url).length ≤ 50 := by
  unfold shortLabel
  split
  · have h3 : (js "...").length = 3 := by decide
    simp only [List.length_append, List.length_take, h3]
    omega
  · omega

theorem urlControl_ne (url : JSString) (a b : JSString) :
    a ++ urlControl url ++ b ≠ a ++ url ++ b := by
  intro h
  have hlen := congrArg List.length h
  have h4 : (js "</a>").length = 4 := by decide
  simp only [urlControl, List.length_append, h4] at hlen
  omega

theorem replaceEmphasisFrom_skip (inherited : JSString → Option JSString)
    (xs ys : JSString) :
    replaceEmphasisFrom inherited xs.length (xs ++ ys) = replaceEmphasisFrom inherited 0 ys := by
  induction xs with
  | nil => rfl
  | cons x xs ih => simpa [replaceEmphasisFrom] using ih

/-- A text that is one emphasized name is replaced by the control of that name. -/
theorem replaceEmphasis_single (inherited : JSString → Option JSString) (name : JSString)
    (hname : emphasisMatch (js "**" ++ name ++ js "**") = some name) :
    replaceEmphasis inherited (js "**" ++ name ++ js "**") = emphasisControl inherited name := by
  have hj : js "**" = [42, 42] := by decide
  rw [hj] at hname ⊢
  have hstep : replaceEmphasisFrom inherited 0 (42 :: ([42] ++ name ++ [42, 42]))
      = emphasisControl inherited name
          ++ replaceEmphasisFrom inherited (name.length + 3) ([42] ++ name ++ [42, 42]) := by
    have hname2 : emphasisMatch (42 :: ([42] ++ name ++ [42, 42])) = some name := by
      simpa using hname
    rw [replaceEmphasisFrom, hname2]
  have hlen : ([42] ++ name ++ [42, 42]).length = name.length + 3 := by
    simp only [List.length_append, List.length_cons, List.length_nil]
    omega
  have hskip := replaceEmphasisFrom_skip inherited ([42] ++ name ++ [42, 42]) []
  rw [hlen, List.append_nil] at hskip
  unfold replaceEmphasis
  rw [show ([42, 42] : JSString) ++ name ++ [42, 42] = 42 :: ([42] ++ name ++ [42, 42]) by simp,
    hstep, hskip]
  simp [replaceEmphasisFrom]

/-- The closed facts about the catalog that the renderer depends on: every name is
found under its own entry, with a non-empty URL; between `**` it is matched as one
emphasized name; and `linkifyUrls` rewrites the URL inside the control of the entry. -/
theorem catalog_rendering (e : JSString × JSString) (he : e ∈ productUrls) :
    productUrls.find? (fun x => x.1 == e.1) = some e
      ∧ e.2.isEmpty = false
      ∧ emphasisMatch (js "**" ++ e.1 ++ js "**") = some e.1
      ∧ linkifyUrls (productControl e.2 e.1)
          = js "<a class=\"product-link\" onclick=\"event.preventDefault();openInBrowser('"
              ++ urlControl e.2
              ++ js "')\" href=\"#\" title=\"View " ++ e.1 ++ js " in browser\">" ++ e.1
              ++ js "</a>" := by
  revert e
  decide

/-! ## Claims about the link renderer -/

/-- C5 (the code departs from the claim): for every catalog entry, the emphasis
substitution turns the name between `**` into the single activation control of that
product, but `makeProductLinks` then runs `linkifyUrls` over this markup, which matches
the URL inside `openInBrowser('...')` and replaces it by a second control; the result
is not the single control. -/
theorem makeProductLinks_relinks_inserted_url (inherited : JSString → Option JSString)
    (e : JSString × JSString) (he : e ∈ productUrls) :
    replaceEmphasis inherited (js "**" ++ e.1 ++ js "**") = productControl e.2 e.1
      ∧ makeProductLinks inherited (js "**" ++ e.1 ++ js "**")
          = js "<a class=\"product-link\" onclick=\"event.preventDefault();openInBrowser('"
              ++ urlControl e.2
              ++ js "')\" href=\"#\" title=\"View " ++ e.1 ++ js " in browser\">" ++ e.1
              ++ js "</a>"
      ∧ makeProductLinks inherited (js "**" ++ e.1 ++ js "**") ≠ productControl e.2 e.1 := by
  obtain ⟨hfind, hurl, hname, hlink⟩ := catalog_rendering e he
  have hfirst : replaceEmphasis inherited (js "**" ++ e.1 ++ js "**")
      = productControl e.2 e.1 := by
    rw [replaceEmphasis_single inherited e.1 hname]
    simp [emphasisControl, productUrlOf, hfind, hurl]
  have hall : makeProductLinks inherited (js "**" ++ e.1 ++ js "**")
      = js "<a class=\"product-link\" onclick=\"event.preventDefault();openInBrowser('"
          ++ urlControl e.2
          ++ js "')\" href=\"#\" title=\"View " ++ e.1 ++ js " in browser\">" ++ e.1
          ++ js "</a>" := by
    unfold makeProductLinks
    rw [hfirst, hlink]
  refine ⟨hfirst, hall, ?_⟩
  rw [hall]
  unfold productControl
  simpa only [List.append_assoc] using
    urlControl_ne e.2
      (js "<a class=\"product-link\" onclick=\"event.preventDefault();openInBrowser('")
      (js "')\" href=\"#\" title=\"View " ++ e.1 ++ js " in browser\">" ++ e.1 ++ js "</a>")

theorem makeProductLinks_relinks_inserted_url_witness :
    makeProductLinks (fun _ => none) (js "**Sony WH-1000XM5**")
      = js "<a class=\"product-link\" onclick=\"event.preventDefault();openInBrowser('<a class=\"product-link\" onclick=\"event.preventDefault();openInBrowser('https://www.amazon.com/s?k=Sony+WH-1000XM5')\" href=\"#\" title=\"Open in browser\">https://www.amazon.com/s?k=Sony+WH-1000XM5</a>')\" href=\"#\" title=\"View Sony WH-1000XM5 in browser\">Sony WH-1000XM5</a>" :=
  (makeProductLinks_relinks_inserted_url (fun _ => none)
    (js "Sony WH-1000XM5", js "https://www.amazon.com/s?k=Sony+WH-1000XM5")
    (by decide)).2.1.trans (by decide)

/-- The same defect on a text the bot really sends: the rendered response to "bass"
holds a control nested inside the `openInBrowser('...')` argument of another. -/
theorem makeProductLinks_bass_response :
    getResponse asciiToLowerCase (js "bass") = getProp botResponses "bass"
      ∧ includes (replaceEmphasis (fun _ => none) (getProp botResponses "bass"))
          (js "openInBrowser('<a class=") = false
      ∧ includes (makeProductLinks (fun _ => none) (getProp botResponses "bass"))
          (js "openInBrowser('<a class=") = true := by
  decide

/-- C6: whenever `urlRegex` matches at a position of the text scanned by `linkifyUrls`
with no match beginning before it, the matched URL `u` is a maximal run made of a scheme
(`http://` or `https://`, in any letter case) and at least one further code unit, none
of them white space, an angle bracket or a quote; `linkifyUrls` copies the text before
`u`, replaces `u` by one control and goes on after `u`. The visible label of the control
is the first 47 code units of `u` followed by "..." when `u` is longer than 50 code units
and `u` itself otherwise, so it is never longer than 50; the argument of `openInBrowser`
is the whole of `u` in both cases. -/
theorem linkifyUrls_label_and_target (pre s : JSString) (n : Nat)
    (hpre : ∀ i, i < pre.length → urlMatchLen ((pre ++ s).drop i) = none)
    (hmatch : urlMatchLen s = some n) :
    ∃ scheme run label : JSString,
      s.take n = scheme ++ run
      ∧ (scheme.map canonicalize = (js "http://").map canonicalize
          ∨ scheme.map canonicalize = (js "https://").map canonicalize)
      ∧ run ≠ [] ∧ (∀ c ∈ run, urlChar c = true)
      ∧ (∀ c ∈ (s.drop n).head?, urlChar c = false)
      ∧ label = (if 50 < (s.take n).length then (s.take n).take 47 ++ js "..."
                  else s.take n)
      ∧ label.length ≤ 50
      ∧ linkifyUrls (pre ++ s)
          = pre
            ++ (js "<a class=\"product-link\" onclick=\"event.preventDefault();openInBrowser('"
                ++ s.take n
                ++ js "')\" href=\"#\" title=\"Open in browser\">" ++ label ++ js "</a>")
            ++ linkifyUrls (s.drop n) := by
  obtain ⟨scheme, run, rest, hs, hn, hscheme, hne, hrun, hrest⟩ := urlMatchLen_some s n hmatch
  have htake : s.take n = scheme ++ run := by
    rw [hs, hn, List.take_left']
    rfl
  have hdrop : s.drop n = rest := by
    rw [hs, hn, List.drop_left']
    rfl
  refine ⟨scheme, run, shortLabel (s.take n), htake, hscheme, hne, hrun, ?_, rfl,
    shortLabel_length _, ?_⟩
  · rw [hdrop]
    exact hrest
  · have hu : scheme ++ run ≠ [] := by
      intro h
      exact hne (List.append_eq_nil.mp h).2
    have hm : urlMatchLen (scheme ++ run ++ rest) = some (scheme ++ run).length := by
      rw [← hs, ← hn]
      exact hmatch
    unfold linkifyUrls
    rw [linkifyFrom_copy pre _ hpre, htake, hdrop]
    conv_lhs => rw [hs]
    rw [linkifyFrom_match (scheme ++ run) rest hu hm]
    simp [urlControl]

theorem linkifyUrls_label_and_target_witness :
    linkifyUrls (js "see https://www.example.com/headphones/abcdefghijklmnopqrstuvwxy now")
      = js "see <a class=\"product-link\" onclick=\"event.preventDefault();openInBrowser('https://www.example.com/headphones/abcdefghijklmnopqrstuvwxy')\" href=\"#\" title=\"Open in browser\">https://www.example.com/headphones/abcdefghijkl...</a> now" :=
  (linkifyUrls_label_and_target (js "see ") (js "https://www.example.com/headphones/abcdefghijklmnopqrstuvwxy now") 60 (by decide) (by decide)).elim
    fun _ h => h.elim fun _ h => h.elim fun _ h =>
      h.2.2.2.2.2.2.2.trans (by rw [h.2.2.2.2.2.1]; decide)

/-- The 60-character URL of the specification's example, evaluated: the label is its
first 47 characters followed by "...", the target is the whole URL. -/
theorem linkifyUrls_sixty :
    (js "https://www.example.com/headphones/abcdefghijklmnopqrstuvwxy").length = 60
      ∧ linkifyUrls (js "https://www.example.com/headphones/abcdefghijklmnopqrstuvwxy")
        = js "<a class=\"product-link\" onclick=\"event.preventDefault();openInBrowser('https://www.example.com/headphones/abcdefghijklmnopqrstuvwxy')\" href=\"#\" title=\"Open in browser\">https://www.example.com/headphones/abcdefghijkl...</a>" := by
  decide

/-! ## Facts about the browser session -/

theorem openInBrowser_shape (url : JSString) (s : Browser) :
    openInBrowser url s =
      { browserHistory := slice0 s.browserHistory (s.browserHistoryIndex + 1) ++ [url]
        browserHistoryIndex := ((slice0 s.browserHistory (s.browserHistoryIndex + 1)).length : Int)
        frameSrc := url
        urlBar := url } := by
  simp [openInBrowser]

theorem navigateBrowser_eq_open (url : JSString) (s : Browser) (hurl : url ≠ []) :
    navigateBrowser url s = openInBrowser (normalizeUrl url) s := by
  cases url with
  | nil => exact absurd rfl hurl
  | cons c cs => simp [navigateBrowser, normalizeUrl]

theorem slice0_of_invariant (s : Browser) (hinv : SessionInvariant s) :
    slice0 s.browserHistory (s.browserHistoryIndex + 1)
      = s.browserHistory.take (s.browserHistoryIndex + 1).toNat := by
  have hnn : ¬ s.browserHistoryIndex + 1 < 0 := by
    rcases hinv with ⟨_, h⟩ | ⟨h, _⟩ <;> omega
  simp [slice0, hnn]

theorem slice0_at_end {α : Type} (xs : List α) : slice0 xs ((xs.length : Int) - 1 + 1) = xs := by
  have h : ¬ ((xs.length : Int) - 1 + 1 < 0) := by omega
  have h2 : ((xs.length : Int) - 1 + 1).toNat = xs.length := by omega
  simp [slice0, h, h2]

theorem getOpt_append_left (p : List JSString) (u v : JSString) :
    (p ++ [u, v]).get? p.length = some u := by
  induction p with
  | nil => rfl
  | cons a as ih => simpa using ih

theorem getOpt_append_right (p : List JSString) (u v : JSString) :
    (p ++ [u, v]).get? (p.length + 1) = some v := by
  induction p with
  | nil => rfl
  | cons a as ih => simpa using ih

theorem elementAt_append_left (p : List JSString) (u v : JSString) :
    elementAt (p ++ [u, v]) (p.length : Int) = u := by
  have h0 : (0 : Int) ≤ (p.length : Int) := by omega
  rw [elementAt, if_pos h0, Int.toNat_ofNat, getOpt_append_left]
  rfl

theorem elementAt_append_right (p : List JSString) (u v : JSString) :
    elementAt (p ++ [u, v]) ((p.length : Int) + 1) = v := by
  have h : ((p.length : Int) + 1).toNat = p.length + 1 := by omega
  have h0 : (0 : Int) ≤ (p.length : Int) + 1 := by omega
  rw [elementAt, if_pos h0, h, getOpt_append_right]
  rfl

theorem step_invariant (s : Browser) (op : Op) (hinv : SessionInvariant s) :
    SessionInvariant (step s op) := by
  have hopen : ∀ url, SessionInvariant (openInBrowser url s) := by
    intro url
    right
    rw [openInBrowser_shape]
    simp
  cases op with
  | openInBrowser url => exact hopen url
  | navigateBrowser url =>
    simp only [step, navigateBrowser]
    split
    · exact hinv
    · exact hopen _
  | browserBack =>
    simp only [step, browserBack]
    split
    · rcases hinv with ⟨_, h⟩ | ⟨h1, h2⟩
      · omega
      · right
        constructor <;> simp only <;> omega
    · exact hinv
  | browserForward =>
    simp only [step, browserForward]
    split
    · right
      rcases hinv with ⟨h0, h⟩ | ⟨h1, h2⟩
      · simp [h0] at *
        omega
      · constructor <;> simp only <;> omega
    · exact hinv
  | browserReload =>
    simp only [step, browserReload]
    split <;> exact hinv

theorem run_invariant (ops : List Op) (s : Browser) (hinv : SessionInvariant s) :
    SessionInvariant (run ops s) := by
  induction ops generalizing s with
  | nil => exact hinv
  | cons op ops ih => exact ih (step s op) (step_invariant s op hinv)

theorem step_history_nonempty (s : Browser) (op : Op) (h : s.browserHistory ≠ []) :
    (step s op).browserHistory ≠ [] := by
  cases op with
  | openInBrowser url => simp [step, openInBrowser]
  | navigateBrowser url =>
    simp only [step, navigateBrowser]
    split
    · exact h
    · simp [openInBrowser]
  | browserBack =>
    simp only [step, browserBack]
    split <;> exact h
  | browserForward =>
    simp only [step, browserForward]
    split <;> exact h
  | browserReload =>
    simp only [step, browserReload]
    split <;> exact h

theorem run_history_nonempty (ops : List Op) (s : Browser) (h : s.browserHistory ≠ []) :
    (run ops s).browserHistory ≠ [] := by
  induction ops generalizing s with
  | nil => exact h
  | cons op ops ih => exact ih (step s op) (step_history_nonempty s op h)

theorem step_frame_empty (s : Browser) (op : Op) (hinv : SessionInvariant s)
    (h : s.browserHistory = [] → s.frameSrc = []) :
    (step s op).browserHistory = [] → (step s op).frameSrc = [] := by
  have hopen : ∀ url, (openInBrowser url s).browserHistory = [] →
      (openInBrowser url s).frameSrc = [] := by
    intro url he
    simp [openInBrowser] at he
  cases op with
  | openInBrowser url => exact hopen url
  | navigateBrowser url =>
    simp only [step, navigateBrowser]
    split
    · exact h
    · exact hopen _
  | browserBack =>
    simp only [step, browserBack]
    split
    · intro he
      rcases hinv with ⟨_, hi⟩ | ⟨_, hi⟩
      · omega
      · simp only at he
        simp [he] at hi
        omega
    · exact h
  | browserForward =>
    simp only [step, browserForward]
    split
    · intro he
      simp only at he
      rename_i hlt
      simp [he] at hlt
      rcases hinv with ⟨_, hi⟩ | ⟨hi, _⟩ <;> omega
    · exact h
  | browserReload =>
    simp only [step, browserReload]
    split <;> exact h

theorem run_frame_empty (ops : List Op) (s : Browser) (hinv : SessionInvariant s)
    (h : s.browserHistory = [] → s.frameSrc = []) :
    (run ops s).browserHistory = [] → (run ops s).frameSrc = [] := by
  induction ops generalizing s with
  | nil => exact h
  | cons op ops ih =>
    exact ih (step s op) (step_invariant s op hinv) (step_frame_empty s op hinv h)

theorem run_append (ops more : List Op) (s : Browser) :
    run (ops ++ more) s = run more (run ops s) := by
  simp [run, List.foldl_append]

/-! ## Claims about the browser session -/

/-- C7: in a state that satisfies the session invariant, opening a non-empty URL through
`navigateBrowser` (which calls `openInBrowser` on the normalized URL) yields as history
the first `index + 1` entries of the old history followed by the normalized URL, and as
index the new history length minus 1; the entries beyond the old index are discarded,
so the new length is the old index plus 2. -/
theorem navigateBrowser_truncates_and_appends (s : Browser) (url : JSString)
    (hinv : SessionInvariant s) (hurl : url ≠ []) :
    navigateBrowser url s = openInBrowser (normalizeUrl url) s
      ∧ (navigateBrowser url s).browserHistory
          = s.browserHistory.take (s.browserHistoryIndex + 1).toNat ++ [normalizeUrl url]
      ∧ (navigateBrowser url s).browserHistoryIndex
          = ((navigateBrowser url s).browserHistory.length : Int) - 1
      ∧ ((navigateBrowser url s).browserHistory.length : Int) = s.browserHistoryIndex + 2 := by
  rw [navigateBrowser_eq_open url s hurl]
  refine ⟨rfl, ?_, ?_, ?_⟩
  · simp [openInBrowser, slice0_of_invariant s hinv]
  · simp [openInBrowser]
  · simp only [openInBrowser, slice0_of_invariant s hinv, List.length_append, List.length_take,
      List.length_singleton]
    rcases hinv with ⟨h0, h⟩ | ⟨h1, h2⟩
    · simp [h0, h]
    · omega

theorem navigateBrowser_truncates_and_appends_witness :
    (navigateBrowser (js "https://d.example")
        { browserHistory := [js "https://a.example", js "https://b.example", js "https://c.example"]
          browserHistoryIndex := 0
          frameSrc := js "https://a.example"
          urlBar := js "https://a.example" }).browserHistory
        = [js "https://a.example", js "https://d.example"]
      ∧ (navigateBrowser (js "https://d.example")
        { browserHistory := [js "https://a.example", js "https://b.example", js "https://c.example"]
          browserHistoryIndex := 0
          frameSrc := js "https://a.example"
          urlBar := js "https://a.example" }).browserHistoryIndex = 1 :=
  have h := navigateBrowser_truncates_and_appends
    { browserHistory := [js "https://a.example", js "https://b.example", js "https://c.example"]
      browserHistoryIndex := 0
      frameSrc := js "https://a.example"
      urlBar := js "https://a.example" }
    (js "https://d.example") (by decide) (by decide)
  ⟨h.2.1.trans (by decide), h.2.2.1.trans (by decide)⟩

theorem open_twice_shape (s : Browser) (u v : JSString) :
    openInBrowser v (openInBrowser u s) =
      { browserHistory := slice0 s.browserHistory (s.browserHistoryIndex + 1) ++ [u, v]
        browserHistoryIndex :=
          ((slice0 s.browserHistory (s.browserHistoryIndex + 1)).length : Int) + 1
        frameSrc := v
        urlBar := v } := by
  have h := slice0_at_end (slice0 s.browserHistory (s.browserHistoryIndex + 1) ++ [u])
  rw [openInBrowser_shape v, openInBrowser_shape u]
  simp only [List.length_append, List.length_singleton, Nat.cast_add, Nat.cast_one] at h ⊢
  have e : ((slice0 s.browserHistory (s.browserHistoryIndex + 1)).length : Int) + 1
      = ((slice0 s.browserHistory (s.browserHistoryIndex + 1)).length : Int) + 1 - 1 + 1 := by
    omega
  rw [e, h]
  simp

theorem back_after_open_twice (p : List JSString) (u v : JSString) :
    browserBack
        { browserHistory := p ++ [u, v], browserHistoryIndex := (p.length : Int) + 1,
          frameSrc := v, urlBar := v }
      = { browserHistory := p ++ [u, v], browserHistoryIndex := (p.length : Int),
          frameSrc := u, urlBar := u } := by
  have h : (p.length : Int) + 1 > 0 := by omega
  simp only [browserBack, if_pos h, add_sub_cancel_right, elementAt_append_left]

theorem forward_after_back (p : List JSString) (u v : JSString) :
    browserForward
        { browserHistory := p ++ [u, v], browserHistoryIndex := (p.length : Int),
          frameSrc := u, urlBar := u }
      = { browserHistory := p ++ [u, v], browserHistoryIndex := (p.length : Int) + 1,
          frameSrc := v, urlBar := v } := by
  have h : (p.length : Int) < ((p ++ [u, v]).length : Int) - 1 := by
    simp only [List.length_append, List.length_cons, List.length_nil, Nat.cast_add]
    omega
  simp only [browserForward, if_pos h, elementAt_append_right]

/-- C8: from every session state (every reachable one in particular), after opening a
non-empty `url` and then a non-empty `url2` through `navigateBrowser`, `browserBack`
makes the current entry `history[index]`, the frame source and the URL bar equal to the
normalized `url`, and `browserForward` after it makes them equal to the normalized
`url2` and restores exactly the state that held after the second open. -/
theorem back_then_forward_after_two_opens (s : Browser) (url url2 : JSString)
    (hurl : url ≠ []) (hurl2 : url2 ≠ []) :
    (elementAt (browserBack (navigateBrowser url2 (navigateBrowser url s))).browserHistory
          (browserBack (navigateBrowser url2 (navigateBrowser url s))).browserHistoryIndex
        = normalizeUrl url
      ∧ (browserBack (navigateBrowser url2 (navigateBrowser url s))).frameSrc = normalizeUrl url
      ∧ (browserBack (navigateBrowser url2 (navigateBrowser url s))).urlBar = normalizeUrl url)
    ∧ (elementAt
          (browserForward (browserBack (navigateBrowser url2 (navigateBrowser url s)))).browserHistory
          (browserForward (browserBack (navigateBrowser url2 (navigateBrowser url s)))).browserHistoryIndex
        = normalizeUrl url2
      ∧ (browserForward (browserBack (navigateBrowser url2 (navigateBrowser url s)))).frameSrc
        = normalizeUrl url2
      ∧ (browserForward (browserBack (navigateBrowser url2 (navigateBrowser url s)))).urlBar
        = normalizeUrl url2)
    ∧ browserForward (browserBack (navigateBrowser url2 (navigateBrowser url s)))
        = navigateBrowser url2 (navigateBrowser url s) := by
  rw [navigateBrowser_eq_open url s hurl, navigateBrowser_eq_open url2 _ hurl2,
    open_twice_shape, back_after_open_twice, forward_after_back]
  exact ⟨⟨elementAt_append_left _ _ _, rfl, rfl⟩, ⟨elementAt_append_right _ _ _, rfl, rfl⟩, rfl⟩

theorem back_then_forward_after_two_opens_witness :
    (browserBack (navigateBrowser (js "example.org")
        (navigateBrowser (js "http://example.com") (initialBrowser [])))).frameSrc
        = js "http://example.com"
      ∧ (browserForward (browserBack (navigateBrowser (js "example.org")
        (navigateBrowser (js "http://example.com") (initialBrowser []))))).frameSrc
        = js "https://example.org" :=
  have h := back_then_forward_after_two_opens (initialBrowser []) (js "http://example.com")
    (js "example.org") (by decide) (by decide)
  ⟨h.1.2.1.trans (by decide), h.2.1.2.1.trans (by decide)⟩

/-- C9: every state reached from the initial state (empty history, index -1) by any
sequence of `openInBrowser`, `navigateBrowser`, `browserBack`, `browserForward` and
`browserReload` calls satisfies the session invariant: the history is empty and the
index is -1, or the index is a position of the history. The index is a position of the
history whenever the history is not empty and whenever a page has been loaded into the
frame, and no further sequence of calls makes a non-empty history empty again. -/
theorem session_invariant_of_reachable (bar : JSString) (ops : List Op) :
    SessionInvariant (run ops (initialBrowser bar))
      ∧ ((run ops (initialBrowser bar)).browserHistory ≠ [] →
          0 ≤ (run ops (initialBrowser bar)).browserHistoryIndex
            ∧ (run ops (initialBrowser bar)).browserHistoryIndex
                < ((run ops (initialBrowser bar)).browserHistory.length : Int))
      ∧ ((run ops (initialBrowser bar)).frameSrc ≠ [] →
          0 ≤ (run ops (initialBrowser bar)).browserHistoryIndex
            ∧ (run ops (initialBrowser bar)).browserHistoryIndex
                < ((run ops (initialBrowser bar)).browserHistory.length : Int))
      ∧ (∀ more : List Op, (run ops (initialBrowser bar)).browserHistory ≠ [] →
          (run (ops ++ more) (initialBrowser bar)).browserHistory ≠ []) := by
  have hinv : SessionInvariant (run ops (initialBrowser bar)) :=
    run_invariant ops _ (Or.inl ⟨rfl, rfl⟩)
  have hvalid : (run ops (initialBrowser bar)).browserHistory ≠ [] →
      0 ≤ (run ops (initialBrowser bar)).browserHistoryIndex
        ∧ (run ops (initialBrowser bar)).browserHistoryIndex
            < ((run ops (initialBrowser bar)).browserHistory.length : Int) := by
    intro hne
    rcases hinv with ⟨h0, _⟩ | h
    · exact absurd h0 hne
    · exact h
  refine ⟨hinv, hvalid, ?_, ?_⟩
  · intro hsrc
    apply hvalid
    intro he
    exact hsrc (run_frame_empty ops _ (Or.inl ⟨rfl, rfl⟩) (fun _ => rfl) he)
  · intro more hne
    rw [run_append]
    exact run_history_nonempty more _ hne

/-- C10: in every session state, `browserBack`, `browserForward` and `browserReload`
leave the history unchanged; `browserBack` leaves the whole state unchanged when
`index <= 0` and otherwise decrements the index by exactly 1; `browserForward` leaves
the whole state unchanged when `index >= history.length - 1` and otherwise increments
the index by exactly 1; `browserReload` changes neither history nor index. -/
theorem back_forward_reload_frame (s : Browser) :
    (browserBack s).browserHistory = s.browserHistory
      ∧ (browserForward s).browserHistory = s.browserHistory
      ∧ (browserReload s).browserHistory = s.browserHistory
      ∧ (s.browserHistoryIndex ≤ 0 → browserBack s = s)
      ∧ (0 < s.browserHistoryIndex →
          (browserBack s).browserHistoryIndex = s.browserHistoryIndex - 1)
      ∧ (s.browserHistoryIndex ≥ (s.browserHistory.length : Int) - 1 → browserForward s = s)
      ∧ (s.browserHistoryIndex < (s.browserHistory.length : Int) - 1 →
          (browserForward s).browserHistoryIndex = s.browserHistoryIndex + 1)
      ∧ (browserReload s).browserHistoryIndex = s.browserHistoryIndex
      ∧ browserReload s = s := by
  refine ⟨?_, ?_, ?_, ?_, ?_, ?_, ?_, ?_, ?_⟩
  · unfold browserBack; split <;> rfl
  · unfold browserForward; split <;> rfl
  · unfold browserReload; split <;> rfl
  · intro h
    have : ¬ s.browserHistoryIndex > 0 := by omega
    simp [browserBack, this]
  · intro h
    simp [browserBack, h]
  · intro h
    have : ¬ s.browserHistoryIndex < (s.browserHistory.length : Int) - 1 := by omega
    simp [browserForward, this]
  · intro h
    simp [browserForward, h]
  · unfold browserReload; split <;> rfl
  · unfold browserReload; split <;> rfl

end AudioIntel
